import Mathlib

/-!
Verification of the RepoPulse repository: the lines-of-code classifier
(`src/metrics/loc.py`), the directory aggregator, the numstat churn parser
(`src/metrics/churn.py`) and the worker pool (`src/worker/pool.py`).

Strings are embedded as `List Char`; Python string helpers (`strip`,
`split`, `splitlines`, regular expressions used by the code) are given
executable Lean counterparts that follow the Python semantics on the
character set the code manipulates.
-/

namespace RepoPulse

/-- Python strings are modelled as lists of characters. -/
abbrev Str := List Char

/-- Whitespace characters recognised by Python's `str.strip`, `str.isspace`
and the regex class `\s` (ASCII range: space, tab, newline, carriage
return, vertical tab, form feed). -/
def isPySpace (c : Char) : Bool :=
  c == ' ' || c == '\t' || c == '\n' || c == '\r' || c == '\x0b' || c == '\x0c'

/-- Python `str.strip()` with no arguments: remove leading and trailing
whitespace. -/
def pyStrip (l : Str) : Str :=
  ((l.dropWhile isPySpace).reverse.dropWhile isPySpace).reverse

/-- Python `line.rstrip("\n\r")`: remove trailing newline and carriage
return characters. -/
def pyRstripNL (l : Str) : Str :=
  (l.reverse.dropWhile (fun c => c == '\n' || c == '\r')).reverse

/-- Python `str.isspace()`: true when the string is non-empty and all of
its characters are whitespace. -/
def pyIsSpace (l : Str) : Bool :=
  !l.isEmpty && l.all isPySpace

/-- First index at which `pat` occurs as a contiguous substring of `l`
(Python `str.index` / successful `re.search` of a literal pattern). -/
def findSub (l pat : Str) : Option Nat :=
  match l with
  | [] => if pat.isEmpty then some 0 else none
  | c :: rest =>
    if pat.isPrefixOf (c :: rest) then some 0
    else (findSub rest pat).map (· + 1)

/-- Containment test `pat in l` (Python `in` operator on strings). -/
def containsSub (l pat : Str) : Bool :=
  (findSub l pat).isSome

/-- Python `content.split(sep)` for a one-character separator: split at
every occurrence, producing `n + 1` (possibly empty) parts for `n`
separators. -/
def pySplitChar : Str → Char → List Str
  | [], _ => [[]]
  | c :: rest, sep =>
    if c == sep then [] :: pySplitChar rest sep
    else
      match pySplitChar rest sep with
      | [] => [[c]]
      | h :: t => (c :: h) :: t

/-- The regex `_SKIP_LINE_RE = ^\s*[{}]?\s*$` from `src/metrics/loc.py`:
optional whitespace, at most one brace, optional whitespace. -/
def skip_line_re (l : Str) : Bool :=
  match l.dropWhile isPySpace with
  | [] => true
  | c :: rest => (c == '{' || c == '}') && rest.all isPySpace

/-- The function `_should_skip_line` of `src/metrics/loc.py`: returns
`(skip, reason)` with reason `"blank"` for empty or whitespace-only lines,
`"excluded"` for lines matching the skip regex, `"code"` otherwise. -/
def should_skip_line (line : Str) : Bool × String :=
  let stripped := pyRstripNL line
  if stripped.isEmpty || pyIsSpace stripped then (true, "blank")
  else if skip_line_re stripped then (true, "excluded")
  else (false, "code")

/-- The regex `_SINGLE_LINE_COMMENT_RE = ^\s*//`. -/
def single_line_comment_re (l : Str) : Bool :=
  ['/', '/'].isPrefixOf (l.dropWhile isPySpace)

/-- The regex search `.+//`: a `//` occurrence at index at least one. -/
def inline_comment_re (l : Str) : Bool :=
  containsSub (l.drop 1) ['/', '/']

/-- The regex `_PY_SINGLE_COMMENT_RE = ^\s*#`. -/
def py_single_comment_re (l : Str) : Bool :=
  ['#'].isPrefixOf (l.dropWhile isPySpace)

/-- The regex search `.+#`: a `#` occurrence at index at least one. -/
def py_inline_comment_re (l : Str) : Bool :=
  (l.drop 1).contains '#'

/-- The substitution `re.sub(r'(["\'])(?:(?!\1).)*\1', '', code_part)` used
by the Python classifier: remove every span running from a quote character
to the next occurrence of the same quote character, scanning left to
right; an unclosed quote is kept verbatim. -/
def pyStripStrings : Str → Str
  | [] => []
  | c :: rest =>
    if c == '"' || c == '\'' then
      match findSub rest [c] with
      | some j => pyStripStrings (rest.drop (j + 1))
      | none => c :: pyStripStrings rest
    else c :: pyStripStrings rest
termination_by l => l.length
decreasing_by
  all_goals simp_all [List.length_drop]
  omega

/-- The function `_classify_line_c_style` of `src/metrics/loc.py`:
classification of one stripped line for Java / TypeScript, returning the
kind (`"comment"`, `"mixed"` or `"code"`) and the updated block-comment
state. -/
def classify_line_c_style (stripped : Str) (in_block : Bool) : String × Bool :=
  if in_block then
    match findSub stripped ['*', '/'] with
    | some i =>
      let after_close := pyStrip (stripped.drop (i + 2))
      if !after_close.isEmpty && !skip_line_re after_close then ("mixed", false)
      else ("comment", false)
    | none => ("comment", true)
  else if single_line_comment_re stripped then ("comment", false)
  else
    match findSub stripped ['/', '*'] with
    | some i =>
      let before_open := pyStrip (stripped.take i)
      let has_code_before := !before_open.isEmpty && !skip_line_re before_open
      if containsSub (stripped.drop (i + 2)) ['*', '/'] then
        -- the source takes `stripped.index("*/")` on the whole line here,
        -- which may even point before the opener
        let j := (findSub stripped ['*', '/']).getD 0
        let after_close := pyStrip (stripped.drop (j + 2))
        let has_code_after := !after_close.isEmpty && !skip_line_re after_close
        if has_code_before || has_code_after then ("mixed", false)
        else ("comment", false)
      else if has_code_before then ("mixed", true)
      else ("comment", true)
    | none =>
      if inline_comment_re stripped then ("mixed", false)
      else ("code", false)

/-- Handling of a docstring opener found at index `idx` in
`_classify_line_python` (the body of the `for quote in ('"""', "'''")`
loop of `src/metrics/loc.py`). -/
def py_docstring_open (stripped : Str) (idx : Nat) (quote : Str) :
    String × Bool × Str :=
  let before := pyStrip (stripped.take idx)
  let rest := stripped.drop (idx + 3)
  match findSub rest quote with
  | some close_idx =>
    let after := pyStrip (rest.drop (close_idx + 3))
    let has_code_before := !before.isEmpty && !skip_line_re before
    let has_code_after := !after.isEmpty && !skip_line_re after
    if has_code_before || has_code_after then ("mixed", false, [])
    else ("comment", false, [])
  | none =>
    let has_code_before := !before.isEmpty && !skip_line_re before
    if has_code_before then ("mixed", true, quote)
    else ("comment", true, quote)

/-- The function `_classify_line_python` of `src/metrics/loc.py`:
classification of one stripped line for Python, returning the kind, the
updated docstring state and the quote that opened the docstring. -/
def classify_line_python (stripped : Str) (in_docstring : Bool)
    (docstring_quote : Str) : String × Bool × Str :=
  if in_docstring then
    match findSub stripped docstring_quote with
    | some i =>
      let after_close := pyStrip (stripped.drop (i + 3))
      if !after_close.isEmpty && !skip_line_re after_close then ("mixed", false, [])
      else ("comment", false, [])
    | none => ("comment", true, docstring_quote)
  else if py_single_comment_re stripped then ("comment", false, [])
  else
    match findSub stripped ['"', '"', '"'] with
    | some idx => py_docstring_open stripped idx ['"', '"', '"']
    | none =>
      match findSub stripped ['\'', '\'', '\''] with
      | some idx => py_docstring_open stripped idx ['\'', '\'', '\'']
      | none =>
        if py_inline_comment_re stripped then
          let code_part := pyStripStrings stripped
          if code_part.contains '#' then ("mixed", false, [])
          else ("code", false, [])
        else ("code", false, [])

/-- The weighting constant `CODE_WEIGHT = 1.0` of `src/metrics/loc.py`.
Floating-point values are modelled as exact rationals: every quantity the
code computes is an integer multiple of `0.5`, exactly representable in
IEEE double precision, so the float arithmetic of the source is exact. -/
def CODE_WEIGHT : ℚ := 1

/-- The weighting constant `COMMENT_WEIGHT = 0.5` of `src/metrics/loc.py`. -/
def COMMENT_WEIGHT : ℚ := 0.5

/-- The function `calculate_weighted_loc` of `src/metrics/loc.py`. -/
def calculate_weighted_loc (code_lines comment_lines : ℕ) : ℚ :=
  (code_lines * CODE_WEIGHT) + (comment_lines * COMMENT_WEIGHT)

/-- The dataclass `FileLOC` of `src/metrics/loc.py`. -/
structure FileLOC where
  path : Str := []
  total_lines : ℕ := 0
  loc : ℕ := 0
  blank_lines : ℕ := 0
  excluded_lines : ℕ := 0
  comment_lines : ℕ := 0
  weighted_loc : ℚ := 0
deriving Repr, DecidableEq

/-- Increment of the blank-line counter in `count_loc_in_content`. -/
def addBlank (r : FileLOC) : FileLOC :=
  { r with blank_lines := r.blank_lines + 1 }

/-- Increment of the excluded-line counter in `count_loc_in_content`. -/
def addExcluded (r : FileLOC) : FileLOC :=
  { r with excluded_lines := r.excluded_lines + 1 }

/-- Counter update for a classified line in `count_loc_in_content`: pure
comment lines increment `comment_lines`; `mixed` and `code` lines both
increment `loc`. -/
def addKind (r : FileLOC) (kind : String) : FileLOC :=
  if kind == "comment" then { r with comment_lines := r.comment_lines + 1 }
  else if kind == "mixed" then { r with loc := r.loc + 1 }
  else { r with loc := r.loc + 1 }

/-- The per-line loop of `count_loc_in_content` (`src/metrics/loc.py`,
lines 227-253): carries the block-comment and docstring state across the
lines and accumulates the four counters. -/
def countLocLoop (language : String) :
    List Str → Bool → Bool → Str → FileLOC → FileLOC
  | [], _, _, _, acc => acc
  | line :: rest, in_block, in_docstring, docstring_quote, acc =>
    if (should_skip_line line).1 then
      if (should_skip_line line).2 == "blank" then
        countLocLoop language rest in_block in_docstring docstring_quote (addBlank acc)
      else
        countLocLoop language rest in_block in_docstring docstring_quote (addExcluded acc)
    else
      if language == "python" then
        countLocLoop language rest in_block
          (classify_line_python (pyStrip line) in_docstring docstring_quote).2.1
          (classify_line_python (pyStrip line) in_docstring docstring_quote).2.2
          (addKind acc (classify_line_python (pyStrip line) in_docstring docstring_quote).1)
      else
        countLocLoop language rest
          (classify_line_c_style (pyStrip line) in_block).2
          in_docstring docstring_quote
          (addKind acc (classify_line_c_style (pyStrip line) in_block).1)

/-- Line splitting in `count_loc_in_content` (`src/metrics/loc.py` lines
216-219): split on `"\n"` and drop the single trailing empty line
produced by a final newline. -/
def contentLines (content : Str) : List Str :=
  match (pySplitChar content '\n').getLast? with
  | some l =>
    if l.isEmpty then (pySplitChar content '\n').dropLast
    else pySplitChar content '\n'
  | none => pySplitChar content '\n'

/-- The final assignment `result.weighted_loc =
calculate_weighted_loc(result.loc, result.comment_lines)` of
`count_loc_in_content`. -/
def setWeighted (r : FileLOC) : FileLOC :=
  { r with weighted_loc := calculate_weighted_loc r.loc r.comment_lines }

/-- The function `count_loc_in_content` of `src/metrics/loc.py`, assembled
from the pieces above: split into lines, run the per-line loop from the
initial (not-in-comment) state, then set the weighted LOC. -/
def count_loc_in_content (content : Str) (language : String) : FileLOC :=
  setWeighted (countLocLoop language (contentLines content) false false []
    { path := [], total_lines := (contentLines content).length })

/-- Sum of the four per-line buckets of a FileLOC. -/
def bucketSum (r : FileLOC) : ℕ :=
  r.loc + r.comment_lines + r.blank_lines + r.excluded_lines

/-- Last index of a character in a string (Python `str.rfind`, with `-1`
for absence represented through `Option`). -/
def rfindChar (l : Str) (c : Char) : Option Nat :=
  match findSub l.reverse [c] with
  | some i => some (l.length - 1 - i)
  | none => none

/-- Python `os.path.splitext`: split off the extension at the last dot of
the basename, where dots leading the basename do not start an
extension. -/
def splitext (p : Str) : Str × Str :=
  match rfindChar p '.' with
  | none => (p, [])
  | some dotIndex =>
    let sepEnd : Nat :=
      match rfindChar p '/' with
      | some sepIndex => sepIndex + 1
      | none => 0
    if sepEnd ≤ dotIndex then
      let base := (p.take dotIndex).drop sepEnd
      if base.any (fun c => c != '.') then (p.take dotIndex, p.drop dotIndex)
      else (p, [])
    else (p, [])

/-- The set `SUPPORTED_EXTENSIONS` of `src/metrics/loc.py`. -/
def SUPPORTED_EXTENSIONS : List Str := [".java".data, ".py".data, ".ts".data]

/-- The function `is_supported_file` of `src/metrics/loc.py`. -/
def is_supported_file (filename : Str) : Bool :=
  SUPPORTED_EXTENSIONS.contains ((splitext filename).2.map Char.toLower)

/-- The function `_detect_language` of `src/metrics/loc.py`: `.py` files
are classified with the Python dialect, everything else (Java and
TypeScript) with the C-style dialect. -/
def detect_language (filepath : Str) : String :=
  if (splitext filepath).2.map Char.toLower == ".py".data then "python"
  else "c-style"

/-- The function `count_loc_in_file` of `src/metrics/loc.py`. The file
system is modelled as data: `content` is `some` text when the file is
readable and `none` when opening raises an OSError (in which case the
file is skipped with a warning). The `relpath` argument is the path of
the file relative to the project root, which the source computes with
`os.path.relpath`. -/
def count_loc_in_file (filepath : Str) (content : Option Str) (relpath : Str) :
    Option FileLOC :=
  if !is_supported_file filepath then none
  else
    match content with
    | none => none
    | some c =>
      some { count_loc_in_content c (detect_language filepath) with path := relpath }

/-- The dataclass `PackageLOC` of `src/metrics/loc.py`. -/
structure PackageLOC where
  package : Str
  loc : ℕ := 0
  file_count : ℕ := 0
  comment_lines : ℕ := 0
  weighted_loc : ℚ := 0
  files : List FileLOC := []
deriving Repr, DecidableEq

/-- The dataclass `ModuleLOC` of `src/metrics/loc.py`. -/
structure ModuleLOC where
  module : Str
  loc : ℕ := 0
  package_count : ℕ := 0
  file_count : ℕ := 0
  comment_lines : ℕ := 0
  packages : List PackageLOC := []
deriving Repr, DecidableEq

/-- The dataclass `ProjectLOC` of `src/metrics/loc.py`. -/
structure ProjectLOC where
  project_root : Str := []
  total_loc : ℕ := 0
  total_files : ℕ := 0
  total_blank_lines : ℕ := 0
  total_excluded_lines : ℕ := 0
  total_comment_lines : ℕ := 0
  total_weighted_loc : ℚ := 0
  packages : List PackageLOC := []
  modules : List ModuleLOC := []
  files : List FileLOC := []
deriving Repr, DecidableEq

/-- The constant `SKIP_DIRS` of `src/metrics/loc.py`. -/
def SKIP_DIRS : List Str :=
  ["node_modules".data, "__pycache__".data, "venv".data, ".venv".data,
   "build".data, "dist".data]

/-- One directory visited by `os.walk(directory)` in
`count_loc_in_directory`: `relDir` is `os.path.relpath(dirpath,
directory)` (`"."` for the root itself) and `files` lists the directory's
file names with their contents (`none` models a file that cannot be
read). The walk is modelled as input data since it is filesystem I/O. -/
structure WalkEntry where
  relDir : Str
  files : List (Str × Option Str)

/-- The directory filter of `count_loc_in_directory` (line 288): skip any
directory whose relative path has a segment that starts with a dot (other
than `"."` itself) or belongs to `SKIP_DIRS`. -/
def dirSkipped (relDir : Str) : Bool :=
  (pySplitChar relDir '/').any
    (fun p => (['.'].isPrefixOf p && p != ['.']) || SKIP_DIRS.contains p)

/-- Lexicographic comparison of character lists by code point, the order
Python's `sorted` uses on strings. -/
def lexLe : Str → Str → Bool
  | [], _ => true
  | _ :: _, [] => false
  | a :: as2, b :: bs2 =>
    if a.val < b.val then true
    else if b.val < a.val then false
    else lexLe as2 bs2

/-- Insertion of an element into a sorted list (helper of the stable
sort modelling Python's `sorted`). -/
def insertLe {α : Type} (le : α → α → Bool) (x : α) : List α → List α
  | [] => [x]
  | y :: ys => if le x y then x :: y :: ys else y :: insertLe le x ys

/-- Python's `sorted`, modelled as a stable insertion sort (structurally
recursive so that concrete runs of the aggregator can be evaluated inside
proofs; `sorted` is a stable sort, and insertion sort is the same
function extensionally). -/
def sortLe {α : Type} (le : α → α → Bool) : List α → List α
  | [] => []
  | x :: xs => insertLe le x (sortLe le xs)

/-- Relative path of a file inside the walked tree, as
`os.path.relpath(os.path.join(dirpath, filename), directory)` produces
it. -/
def relPathOf (relDir fname : Str) : Str :=
  if relDir == ['.'] then fname else relDir ++ '/' :: fname

/-- The inner loop of `count_loc_in_directory` for one walked directory:
file names are visited in sorted order, unsupported files are skipped,
and each remaining readable file contributes its FileLOC tagged with the
containing relative directory. -/
def entryFiles (entry : WalkEntry) : List (Str × FileLOC) :=
  if dirSkipped entry.relDir then []
  else
    (sortLe (fun a b => lexLe a.1 b.1) entry.files).filterMap
      (fun fc =>
        if !is_supported_file fc.1 then none
        else
          (count_loc_in_file (relPathOf entry.relDir fc.1) fc.2
            (relPathOf entry.relDir fc.1)).map (fun fl => (entry.relDir, fl)))

/-- All file contributions of the walk, in visit order. -/
def collectFiles : List WalkEntry → List (Str × FileLOC)
  | [] => []
  | entry :: rest => entryFiles entry ++ collectFiles rest

/-- The sentinel package/module key `"(root)"`. -/
def rootKey : Str := "(root)".data

/-- A fresh `PackageLOC(package=key)` as created on first touch of a
package key. -/
def pkgNew (key : Str) : PackageLOC := { package := key }

/-- The per-file package update of `count_loc_in_directory` (lines
311-315). -/
def pkgAdd (p : PackageLOC) (fl : FileLOC) : PackageLOC :=
  { p with
    loc := p.loc + fl.loc
    file_count := p.file_count + 1
    comment_lines := p.comment_lines + fl.comment_lines
    weighted_loc := p.weighted_loc + fl.weighted_loc
    files := p.files ++ [fl] }

/-- Update of the insertion-ordered package map (`package_map` dict):
create the entry on first touch, then fold the file in. -/
def updatePackageMap : List (Str × PackageLOC) → Str → FileLOC → List (Str × PackageLOC)
  | [], key, fl => [(key, pkgAdd (pkgNew key) fl)]
  | (k, p) :: rest, key, fl =>
    if k == key then (k, pkgAdd p fl) :: rest
    else (k, p) :: updatePackageMap rest key fl

/-- A fresh `ModuleLOC(module=key)` as created on first touch of a module
key. -/
def modNew (key : Str) : ModuleLOC := { module := key }

/-- The per-file module update of `count_loc_in_directory` (lines
326-328): note that `package_count` is never incremented. -/
def modAdd (m : ModuleLOC) (fl : FileLOC) : ModuleLOC :=
  { m with
    loc := m.loc + fl.loc
    file_count := m.file_count + 1
    comment_lines := m.comment_lines + fl.comment_lines }

/-- Update of the insertion-ordered module map (`module_map` dict). -/
def updateModuleMap : List (Str × ModuleLOC) → Str → FileLOC → List (Str × ModuleLOC)
  | [], key, fl => [(key, modAdd (modNew key) fl)]
  | (k, m) :: rest, key, fl =>
    if k == key then (k, modAdd m fl) :: rest
    else (k, m) :: updateModuleMap rest key fl

/-- The project-total update of `count_loc_in_directory` (lines
300-306). -/
def projAdd (project : ProjectLOC) (fl : FileLOC) : ProjectLOC :=
  { project with
    files := project.files ++ [fl]
    total_loc := project.total_loc + fl.loc
    total_files := project.total_files + 1
    total_blank_lines := project.total_blank_lines + fl.blank_lines
    total_excluded_lines := project.total_excluded_lines + fl.excluded_lines
    total_comment_lines := project.total_comment_lines + fl.comment_lines
    total_weighted_loc := project.total_weighted_loc + fl.weighted_loc }

/-- Accumulator of the walk: project totals plus the two insertion-ordered
maps. -/
structure Agg where
  project : ProjectLOC
  pkgMap : List (Str × PackageLOC)
  modMap : List (Str × ModuleLOC)

/-- The package key of a walked directory: the relative directory, with
the project root mapped to the sentinel `"(root)"`. -/
def pkgKeyOf (relDir : Str) : Str :=
  if relDir == ['.'] then rootKey else relDir

/-- The module key of a walked directory: its first path segment, with the
project root mapped to the sentinel `"(root)"`. -/
def modKeyOf (relDir : Str) : Str :=
  if relDir == ['.'] then rootKey
  else ((pySplitChar relDir '/').headD rootKey)

/-- One iteration of the per-file body of `count_loc_in_directory`. -/
def foldStep (acc : Agg) (e : Str × FileLOC) : Agg :=
  { project := projAdd acc.project e.2
    pkgMap := updatePackageMap acc.pkgMap (pkgKeyOf e.1) e.2
    modMap := updateModuleMap acc.modMap (modKeyOf e.1) e.2 }

/-- The module a package is cross-linked to at the end of
`count_loc_in_directory` (lines 333-339): the first path segment of the
package key, with `"(root)"` mapped to itself. -/
def moduleOfPackage (pkg : PackageLOC) : Str :=
  if pkg.package == rootKey then rootKey
  else ((pySplitChar pkg.package '/').headD rootKey)

/-- Appending a package to its module's package list (line 344); a module
key absent from the map leaves the map unchanged, mirroring the `if mod
in module_map` guard. -/
def appendPkgToModule : List (Str × ModuleLOC) → Str → PackageLOC → List (Str × ModuleLOC)
  | [], _, _ => []
  | (k, m) :: rest, mod, pkg =>
    if k == mod then (k, { m with packages := m.packages ++ [pkg] }) :: rest
    else (k, m) :: appendPkgToModule rest mod pkg

/-- Initial accumulator: `ProjectLOC(project_root=directory)` and the two
empty dicts. -/
def aggInit (directory : Str) : Agg :=
  { project := { project_root := directory }, pkgMap := [], modMap := [] }

/-- State of the accumulator after the walk loop of
`count_loc_in_directory`. -/
def walkAgg (walk : List WalkEntry) (directory : Str) : Agg :=
  (collectFiles walk).foldl foldStep (aggInit directory)

/-- The sorted package list (`project.packages = sorted(...)`, line
330). -/
def finalPackages (walk : List WalkEntry) (directory : Str) : List PackageLOC :=
  sortLe (fun p q => lexLe p.package q.package)
    ((walkAgg walk directory).pkgMap.map Prod.snd)

/-- The module map after each package has been appended to its module
(lines 341-344). -/
def finalModMap (walk : List WalkEntry) (directory : Str) : List (Str × ModuleLOC) :=
  (finalPackages walk directory).foldl
    (fun mm pkg => appendPkgToModule mm (moduleOfPackage pkg) pkg)
    (walkAgg walk directory).modMap

/-- The function `count_loc_in_directory` of `src/metrics/loc.py`, over
the modelled walk: fold every supported readable file into the project
totals and the package/module maps, sort packages and modules by key,
and cross-link each package into its module. -/
def count_loc_in_directory (walk : List WalkEntry) (directory : Str) : ProjectLOC :=
  { (walkAgg walk directory).project with
    packages := finalPackages walk directory
    modules := sortLe (fun p q => lexLe p.module q.module)
      ((finalModMap walk directory).map Prod.snd) }

/-- Sum of a natural-number measure over a list. -/
def sumBy {α : Type} (f : α → ℕ) (l : List α) : ℕ := (l.map f).sum

/-- Sum of a rational measure over a list. -/
def sumByQ {α : Type} (f : α → ℚ) (l : List α) : ℚ := (l.map f).sum

/-- Sum of a measure over the values of an insertion-ordered package
map. -/
def pkgMapSum (f : PackageLOC → ℕ) (m : List (Str × PackageLOC)) : ℕ :=
  sumBy (fun kv => f kv.2) m

/-- Sum of a measure over the values of an insertion-ordered module
map. -/
def modMapSum (f : ModuleLOC → ℕ) (m : List (Str × ModuleLOC)) : ℕ :=
  sumBy (fun kv => f kv.2) m

/-- A churn dictionary `{added, deleted, modified, total}` as produced by
`src/metrics/churn.py` (all values non-negative: the numstat parser
discards negative fields and the sums only add). -/
structure Churn where
  added : ℕ
  deleted : ℕ
  modified : ℕ
  total : ℕ
deriving Repr, DecidableEq

/-- The result dictionary stored by `WorkerPool._run_job`
(`src/worker/pool.py` lines 205-221): the ProjectLOC summary, to which a
`churn` entry is added afterwards. -/
structure JobResult where
  project_root : Str
  total_loc : ℕ
  total_files : ℕ
  total_blank_lines : ℕ
  total_excluded_lines : ℕ
  total_comment_lines : ℕ
  total_weighted_loc : ℚ
  churn : Option Churn
deriving Repr, DecidableEq

/-- The summary dictionary built from a ProjectLOC (lines 205-213), before
the churn entry is added. -/
def summaryOf (p : ProjectLOC) : JobResult :=
  { project_root := p.project_root
    total_loc := p.total_loc
    total_files := p.total_files
    total_blank_lines := p.total_blank_lines
    total_excluded_lines := p.total_excluded_lines
    total_comment_lines := p.total_comment_lines
    total_weighted_loc := p.total_weighted_loc
    churn := none }

/-- The class `JobRecord` of `src/worker/pool.py`: the in-memory record
for a single job. Timestamps are modelled as abstract clock readings
(naturals); the `future` handle is a thread-pool internal and carries no
observable state of its own. -/
structure JobRecord where
  job_id : Str
  repo_url : Option Str := none
  local_path : Option Str := none
  status : String := "queued"
  created_at : ℕ := 0
  started_at : Option ℕ := none
  completed_at : Option ℕ := none
  result : Option JobResult := none
  error : Option String := none
deriving Repr, DecidableEq

/-- The state of a `concurrent.futures.ThreadPoolExecutor` as far as the
pool observes it: whether `shutdown()` has been called. Per the Python
standard library contract, `submit` on a shut-down executor raises
`RuntimeError("cannot schedule new futures after shutdown")`. -/
structure Executor where
  isShutdown : Bool := false
deriving Repr, DecidableEq

/-- The class `WorkerPool` of `src/worker/pool.py`: the executor handle
(`self._executor`, `None` until `start()`) and the shared job table
(`self._jobs`, an insertion-ordered dict). -/
structure WorkerPool where
  pool_size : ℕ
  executor : Option Executor := none
  jobs : List (Str × JobRecord) := []
deriving Repr, DecidableEq

/-- `WorkerPool.start` (lines 62-70): idempotent creation of the
executor. -/
def WorkerPool.start (pool : WorkerPool) : WorkerPool :=
  match pool.executor with
  | some _ => pool
  | none => { pool with executor := some {} }

/-- `WorkerPool.shutdown` (lines 72-76): the source calls
`self._executor.shutdown(wait)` but never clears `self._executor`, so the
pool keeps a reference to a now shut-down executor. The `wait` flag only
affects blocking, not the resulting state. -/
def WorkerPool.shutdown (pool : WorkerPool) : WorkerPool :=
  match pool.executor with
  | some e => { pool with executor := some { e with isShutdown := true } }
  | none => pool

/-- Dict insertion `self._jobs[job_id] = record`: overwrite an existing
key in place, else append. -/
def insertJob : List (Str × JobRecord) → Str → JobRecord → List (Str × JobRecord)
  | [], key, r => [(key, r)]
  | (k, r0) :: rest, key, r =>
    if k == key then (k, r) :: rest
    else (k, r0) :: insertJob rest key r

/-- Dict lookup `self._jobs.get(job_id)` (`WorkerPool.get_job`). -/
def lookupJob : List (Str × JobRecord) → Str → Option JobRecord
  | [], _ => none
  | (k, r) :: rest, key => if k == key then some r else lookupJob rest key

/-- The constructor `JobRecord.__init__`: a fresh record in `queued`
state with the given creation time. -/
def mkJobRecord (job_id : Str) (repo_url local_path : Option Str) (now : ℕ) : JobRecord :=
  { job_id := job_id, repo_url := repo_url, local_path := local_path,
    created_at := now }

/-- `WorkerPool.submit` (lines 80-91): raise when the executor was never
created; otherwise create the queued record, store it in the shared job
table, and schedule it on the executor. Exceptions are modelled with
`Except`; note that after `shutdown()` the `self._executor is None` check
passes, the record is stored, and only the subsequent
`self._executor.submit` call raises (with the standard library's
shutdown message, not the pool's "not running" one). -/
def WorkerPool.submit (pool : WorkerPool) (job_id : Str)
    (repo_url local_path : Option Str) (now : ℕ) :
    WorkerPool × Except String JobRecord :=
  match pool.executor with
  | none => (pool, Except.error "Worker pool is not running")
  | some ex =>
    if ex.isShutdown then
      ({ pool with jobs := insertJob pool.jobs job_id (mkJobRecord job_id repo_url local_path now) },
       Except.error "cannot schedule new futures after shutdown")
    else
      ({ pool with jobs := insertJob pool.jobs job_id (mkJobRecord job_id repo_url local_path now) },
       Except.ok (mkJobRecord job_id repo_url local_path now))

/-- Python truthiness of an optional string: `None` and the empty string
are falsy (`if record.repo_url:`). -/
def pyTruthy (o : Option Str) : Bool :=
  match o with
  | some s => !s.isEmpty
  | none => false

/-- Outcomes of the external collaborators consulted by one run of
`WorkerPool._run_job`, modelled as data: the clone result, the
directory-aggregator result (an OSError during the walk is an error), the
best-effort InfluxDB write (always swallowed, lines 201-202) and the
best-effort churn computation (a failure degrades to a zeroed churn,
lines 219-221), plus the two wall-clock readings. -/
structure RunEnv where
  cloneResult : Except String Str
  locResult : Except String ProjectLOC
  influxResult : Except String Unit
  churnResult : Except String Churn
  startTime : ℕ
  endTime : ℕ

/-- The zeroed churn fallback of line 221. -/
def zeroChurn : Churn := { added := 0, deleted := 0, modified := 0, total := 0 }

/-- Source resolution of `_run_job` (lines 131-136): a truthy `repo_url`
is cloned, else a truthy `local_path` is used directly, else a
`ValueError` is raised. -/
def resolveSource (record : JobRecord) (env : RunEnv) : Except String Str :=
  if pyTruthy record.repo_url then env.cloneResult
  else if pyTruthy record.local_path then Except.ok (record.local_path.getD [])
  else Except.error "No repo_url or local_path provided"

/-- The `try:` block of `_run_job` (lines 129-224): resolve the source,
aggregate, store the summary, add the (best-effort) churn and complete.
The InfluxDB section is wrapped in its own `try/except` and can never
fail the job, so it contributes nothing to the record. -/
def runJobBody (record : JobRecord) (env : RunEnv) : Except String JobRecord :=
  match resolveSource record env with
  | Except.error msg => Except.error msg
  | Except.ok _repo_path =>
    match env.locResult with
    | Except.error msg => Except.error msg
    | Except.ok project_loc =>
      Except.ok { record with
        status := "completed"
        result := some { summaryOf project_loc with
          churn := some (match env.churnResult with
            | Except.ok c => c
            | Except.error _ => zeroChurn) } }

/-- The entry transition of `_run_job` (lines 124-125). -/
def setProcessing (r : JobRecord) (t : ℕ) : JobRecord :=
  { r with status := "processing", started_at := some t }

/-- The `finally:` clause of `_run_job` (line 231). -/
def setCompletedAt (r : JobRecord) (t : ℕ) : JobRecord :=
  { r with completed_at := some t }

/-- `WorkerPool._run_job` (lines 122-233): mark processing, run the body,
on any exception mark failed with the exception's message, and always
stamp the completion time. -/
def run_job (record : JobRecord) (env : RunEnv) : JobRecord :=
  setCompletedAt
    (match runJobBody (setProcessing record env.startTime) env with
     | Except.ok r => r
     | Except.error msg =>
       { setProcessing record env.startTime with
         status := "failed", error := some msg })
    env.endTime

/-- A concrete collaborator environment whose clone step fails. -/
def envBoom : RunEnv :=
  { cloneResult := Except.error "boom", locResult := Except.ok {},
    influxResult := Except.ok (), churnResult := Except.ok zeroChurn,
    startTime := 0, endTime := 1 }

/-- Python `str.splitlines` restricted to the line terminators git output
contains: `\n`, `\r\n` and `\r`. A trailing terminator does not produce a
final empty line. -/
def pySplitlines : Str → List Str
  | [] => []
  | '\n' :: rest => [] :: pySplitlines rest
  | '\r' :: '\n' :: rest => [] :: pySplitlines rest
  | '\r' :: rest => [] :: pySplitlines rest
  | c :: rest =>
    match pySplitlines rest with
    | [] => [[c]]
    | h :: t => (c :: h) :: t

/-- Split at the first occurrence of a separator character (helper for
Python `str.split(sep, maxsplit)`). -/
def splitFirst : Str → Char → Option (Str × Str)
  | [], _ => none
  | c :: rest, sep =>
    if c == sep then some ([], rest)
    else
      match splitFirst rest sep with
      | none => none
      | some (a, b) => some (c :: a, b)

/-- Python `line.split("\t", maxsplit=2)`: at most two splits, so the
path field may itself contain tabs. -/
def pySplitTabMax2 (l : Str) : List Str :=
  match splitFirst l '\t' with
  | none => [l]
  | some (a, rest) =>
    match splitFirst rest '\t' with
    | none => [a, rest]
    | some (b, rest2) => [a, b, rest2]

/-- Continuation of a digit run: digits with single underscores allowed
between digits (the grammar Python's `int` accepts after sign and
whitespace handling). -/
def pyDigitsRest : Str → Bool
  | [] => true
  | c :: rest =>
    if c.isDigit then pyDigitsRest rest
    else if c == '_' then
      match rest with
      | [] => false
      | d :: rest2 => d.isDigit && pyDigitsRest rest2
    else false

/-- A non-empty digit run with optional single underscores between
digits. -/
def pyDigits : Str → Bool
  | [] => false
  | c :: rest => c.isDigit && pyDigitsRest rest

/-- Numeric value of a digit run (underscores skipped). -/
def digitsVal (l : Str) : ℕ :=
  (l.filter (fun c => c != '_')).foldl (fun n c => n * 10 + (c.toNat - '0'.toNat)) 0

/-- Python `int(s)`: strip surrounding whitespace, accept an optional
sign followed by a digit run (ASCII digits, single underscores allowed
between digits); anything else raises ValueError, modelled as `none`. -/
def pyIntParse (s : Str) : Option ℤ :=
  match pyStrip s with
  | '+' :: rest => if pyDigits rest then some (digitsVal rest : ℤ) else none
  | '-' :: rest => if pyDigits rest then some (-(digitsVal rest : ℤ)) else none
  | t => if pyDigits t then some (digitsVal t : ℤ) else none

/-- One iteration of the `_parse_numstat` loop (`src/metrics/churn.py`
lines 95-119): the contribution of one line, `none` when one of the
`continue` branches skips it (blank line, fewer than three tab-separated
parts, a `-` marking a binary file, a non-numeric field, or a negative
value). The three-element match is exactly the `len(parts) < 3` guard,
since the maxsplit-2 split yields one, two or three parts. -/
def numstatLine (line : Str) : Option (ℕ × ℕ) :=
  if (pyStrip line).isEmpty then none
  else
    match pySplitTabMax2 (pyStrip line) with
    | [a_str, d_str, _path] =>
      if a_str == "-".data || d_str == "-".data then none
      else
        match pyIntParse a_str, pyIntParse d_str with
        | some a, some d =>
          if a < 0 || d < 0 then none else some (a.toNat, d.toNat)
        | _, _ => none
    | _ => none

/-- The function `_parse_numstat` of `src/metrics/churn.py`: sum the
added/deleted contributions of every line of the numstat output. -/
def parse_numstat (output : Str) : ℕ × ℕ :=
  (pySplitlines output).foldl
    (fun ad line =>
      match numstatLine line with
      | none => ad
      | some p => (ad.1 + p.1, ad.2 + p.2))
    (0, 0)

/-- The function `compute_commit_churn` of `src/metrics/churn.py`, as a
function of the `git show --numstat` output for the commit (the
subprocess and the repository-existence checks that precede it are
filesystem interaction and are modelled as the produced output): parse
the numstat, then report `modified = min(added, deleted)` and `total =
added + deleted`. -/
def compute_commit_churn (numstatOutput : Str) : Churn :=
  { added := (parse_numstat numstatOutput).1
    deleted := (parse_numstat numstatOutput).2
    modified := min (parse_numstat numstatOutput).1 (parse_numstat numstatOutput).2
    total := (parse_numstat numstatOutput).1 + (parse_numstat numstatOutput).2 }

theorem bucketSum_addBlank (r : FileLOC) : bucketSum (addBlank r) = bucketSum r + 1 := by
  simp [bucketSum, addBlank]; omega

theorem bucketSum_addExcluded (r : FileLOC) :
    bucketSum (addExcluded r) = bucketSum r + 1 := by
  simp [bucketSum, addExcluded]; omega

theorem bucketSum_addKind (r : FileLOC) (kind : String) :
    bucketSum (addKind r kind) = bucketSum r + 1 := by
  unfold addKind
  split <;> [skip; split] <;> simp [bucketSum] <;> omega

/-- Each iteration of the classification loop puts the line into exactly
one of the four buckets. -/
theorem countLocLoop_bucketSum (language : String) (lines : List Str) :
    ∀ ib idoc dq acc, bucketSum (countLocLoop language lines ib idoc dq acc)
      = bucketSum acc + lines.length := by
  induction lines with
  | nil => intro ib idoc dq acc; simp [countLocLoop]
  | cons line rest ih =>
    intro ib idoc dq acc
    unfold countLocLoop
    split
    · split <;>
        simp only [ih, bucketSum_addBlank, bucketSum_addExcluded,
          List.length_cons] <;> omega
    · split <;>
        simp only [ih, bucketSum_addKind, List.length_cons] <;> omega

/-- The classification loop never touches the `total_lines` field. -/
theorem countLocLoop_total_lines (language : String) (lines : List Str) :
    ∀ ib idoc dq acc, (countLocLoop language lines ib idoc dq acc).total_lines
      = acc.total_lines := by
  induction lines with
  | nil => intro ib idoc dq acc; simp [countLocLoop]
  | cons line rest ih =>
    intro ib idoc dq acc
    unfold countLocLoop
    split
    · split <;> simp [ih, addBlank, addExcluded]
    · split <;> (rw [ih]; unfold addKind; split <;> [skip; split] <;> simp)

/-- C1: for every input content string and every dialect, the FileLOC
produced by the line classifier satisfies `loc + comment_lines +
blank_lines + excluded_lines = total_lines`: each physical line is
counted in exactly one of the four buckets. -/
theorem C1_line_partition (content : Str) (language : String) :
    (count_loc_in_content content language).loc
      + (count_loc_in_content content language).comment_lines
      + (count_loc_in_content content language).blank_lines
      + (count_loc_in_content content language).excluded_lines
      = (count_loc_in_content content language).total_lines := by
  have hb := countLocLoop_bucketSum language (contentLines content) false false []
    { path := [], total_lines := (contentLines content).length }
  have ht := countLocLoop_total_lines language (contentLines content) false false []
    { path := [], total_lines := (contentLines content).length }
  simp only [count_loc_in_content, setWeighted, bucketSum] at hb ht ⊢
  simp at hb
  omega

/-- Splitting on a separator never yields an empty list of parts. -/
theorem pySplitChar_ne_nil (l : Str) (sep : Char) : pySplitChar l sep ≠ [] := by
  cases l with
  | nil => simp [pySplitChar]
  | cons c rest =>
    by_cases h : c == sep
    · simp [pySplitChar, h]
    · simp only [pySplitChar, h]
      cases hr : pySplitChar rest sep <;> simp

/-- Unfolding of the split at a separator character. -/
theorem pySplitChar_cons_eq (c : Char) (rest : Str) (sep : Char)
    (h : (c == sep) = true) :
    pySplitChar (c :: rest) sep = [] :: pySplitChar rest sep := by
  simp [pySplitChar, h]

/-- Unfolding of the split at a non-separator character. -/
theorem pySplitChar_cons_ne (c : Char) (rest : Str) (sep : Char)
    (h : ¬ (c == sep) = true) :
    pySplitChar (c :: rest) sep =
      (match pySplitChar rest sep with
       | [] => [[c]]
       | h :: t => (c :: h) :: t) := by
  simp [pySplitChar, h]

/-- Appending a final separator appends one trailing empty part. -/
theorem pySplitChar_append_sep (l : Str) (sep : Char) :
    pySplitChar (l ++ [sep]) sep = pySplitChar l sep ++ [[]] := by
  induction l with
  | nil => simp [pySplitChar]
  | cons c rest ih =>
    by_cases h : (c == sep) = true
    · rw [List.cons_append, pySplitChar_cons_eq c (rest ++ [sep]) sep h,
        pySplitChar_cons_eq c rest sep h, ih]
      simp
    · rw [List.cons_append, pySplitChar_cons_ne c (rest ++ [sep]) sep h,
        pySplitChar_cons_ne c rest sep h, ih]
      cases hr : pySplitChar rest sep with
      | nil => exact absurd hr (pySplitChar_ne_nil rest sep)
      | cons h0 t0 => simp

/-- When the content is non-empty and does not end in the separator, the
last part produced by the split is non-empty. -/
theorem pySplitChar_getLast_ne_nil (sep : Char) :
    ∀ l : Str, l ≠ [] → l.getLast? ≠ some sep →
      ∃ t, (pySplitChar l sep).getLast? = some t ∧ t ≠ [] := by
  intro l
  induction l with
  | nil => simp
  | cons c rest ih =>
    intro _ hlast
    cases rest with
    | nil =>
      have hc : ¬ (c == sep) = true := by
        simp only [List.getLast?_singleton] at hlast
        simpa using hlast
      refine ⟨[c], ?_, by simp⟩
      rw [pySplitChar_cons_ne c [] sep hc]
      simp [pySplitChar]
    | cons d rest2 =>
      have hlast2 : (d :: rest2).getLast? ≠ some sep := by
        rwa [List.getLast?_cons_cons] at hlast
      obtain ⟨t, ht, htne⟩ := ih (by simp) hlast2
      by_cases h : (c == sep) = true
      · refine ⟨t, ?_, htne⟩
        rw [pySplitChar_cons_eq c (d :: rest2) sep h]
        cases hr : pySplitChar (d :: rest2) sep with
        | nil => exact absurd hr (pySplitChar_ne_nil _ _)
        | cons h0 t0 =>
          rw [hr] at ht
          rw [List.getLast?_cons_cons]
          exact ht
      · cases hr : pySplitChar (d :: rest2) sep with
        | nil => exact absurd hr (pySplitChar_ne_nil _ _)
        | cons h0 t0 =>
          rw [hr] at ht
          rw [pySplitChar_cons_ne c (d :: rest2) sep h, hr]
          cases t0 with
          | nil =>
            simp only [List.getLast?_singleton, Option.some_inj] at ht
            refine ⟨c :: h0, by simp, by simp⟩
          | cons x xs =>
            refine ⟨t, ?_, htne⟩
            rw [List.getLast?_cons_cons] at ht ⊢
            exact ht

/-- Appending a final newline to non-empty content that does not end in a
newline leaves the physical-line list unchanged. -/
theorem contentLines_append_newline (content : Str)
    (h1 : content ≠ []) (h2 : content.getLast? ≠ some '\n') :
    contentLines (content ++ ['\n']) = contentLines content := by
  obtain ⟨t, ht, htne⟩ := pySplitChar_getLast_ne_nil '\n' content h1 h2
  unfold contentLines
  rw [pySplitChar_append_sep, List.getLast?_concat, List.dropLast_concat, ht]
  cases t with
  | nil => exact absurd rfl htne
  | cons x xs => simp

/-- C8 counterexample: the empty content does not end in a newline, yet
appending a single final newline changes the counts (the trailing empty
line of `"\n"` is first split into two empty parts, only one of which is
discarded, leaving one extra blank line). -/
theorem C8_counterexample :
    ([] : Str).getLast? ≠ some '\n' ∧
    count_loc_in_content (([] : Str) ++ ['\n']) "python"
      ≠ count_loc_in_content ([] : Str) "python" := by
  constructor
  · decide
  · decide

/-- C8 amended: for every NON-EMPTY content string that does not end in a
newline, the counts produced for the content with a single final newline
appended are identical to those produced without it (the empty content is
the one exception: it yields zero lines, while a lone newline yields one
blank line). -/
theorem C8_trailing_newline (content : Str) (language : String)
    (h1 : content ≠ []) (h2 : content.getLast? ≠ some '\n') :
    count_loc_in_content (content ++ ['\n']) language
      = count_loc_in_content content language := by
  unfold count_loc_in_content
  rw [contentLines_append_newline content h1 h2]

/-- Witness for C8: the one-character content `"x"`. -/
theorem C8_trailing_newline_witness :
    count_loc_in_content (['x'] ++ ['\n']) "python"
      = count_loc_in_content ['x'] "python" :=
  C8_trailing_newline ['x'] "python" (by decide) (by decide)

/-- Dropping a prefix of characters that all fail `f` leaves a filter by
`f` unchanged. -/
theorem filter_dropWhile_eq (f p : Char → Bool) (hfp : ∀ c, p c = true → f c = false) :
    ∀ l : Str, (l.dropWhile p).filter f = l.filter f := by
  intro l
  induction l with
  | nil => simp
  | cons c rest ih =>
    by_cases h : p c = true
    · rw [List.dropWhile_cons_of_pos h, ih, List.filter_cons_of_neg]
      simp [hfp c h]
    · rw [List.dropWhile_cons_of_neg h]

/-- Trailing newline removal does not change the non-whitespace residue of
a line. -/
theorem filter_pyRstripNL (line : Str) :
    (pyRstripNL line).filter (fun c => !isPySpace c)
      = line.filter (fun c => !isPySpace c) := by
  unfold pyRstripNL
  rw [List.filter_reverse, filter_dropWhile_eq, ← List.filter_reverse,
    List.reverse_reverse]
  intro c hc
  have : isPySpace c = true := by
    rcases Bool.or_eq_true_iff.mp hc with h | h <;>
      · rw [eq_of_beq h]; decide
  simp [this]

/-- A line whose characters are all whitespace is skipped as blank. -/
theorem should_skip_line_blank (line : Str)
    (h : line.filter (fun c => !isPySpace c) = []) :
    should_skip_line line = (true, "blank") := by
  have hall : ∀ c ∈ pyRstripNL line, isPySpace c = true := by
    intro c hc
    have hmem : c ∈ line := by
      unfold pyRstripNL at hc
      rw [List.mem_reverse] at hc
      have := (List.dropWhile_sublist _).subset hc
      rwa [List.mem_reverse] at this
    have h2 := List.filter_eq_nil_iff.mp h _ hmem
    simpa using h2
  cases hs : pyRstripNL line with
  | nil => simp [should_skip_line, hs]
  | cons c rest =>
    have hsp : pyIsSpace (c :: rest) = true := by
      unfold pyIsSpace
      simp only [List.isEmpty_cons, Bool.not_false, Bool.true_and]
      rw [List.all_eq_true]
      intro x hx
      exact hall x (hs ▸ hx)
    simp [should_skip_line, hs, hsp]

/-- Whitespace at the head of a line does not change the skip regex. -/
theorem skip_line_re_cons_space (c : Char) (rest : Str) (h : isPySpace c = true) :
    skip_line_re (c :: rest) = skip_line_re rest := by
  unfold skip_line_re
  rw [List.dropWhile_cons_of_pos h]

/-- A line whose only non-whitespace character is a single brace matches
the skip regex. -/
theorem skip_line_re_of_filter (b : Char) (hb : (b == '{' || b == '}') = true) :
    ∀ l : Str, l.filter (fun c => !isPySpace c) = [b] → skip_line_re l = true := by
  intro l
  induction l with
  | nil => simp
  | cons c rest ih =>
    intro hf
    by_cases h : isPySpace c = true
    · rw [List.filter_cons_of_neg (by simp [h])] at hf
      rw [skip_line_re_cons_space c rest h]
      exact ih hf
    · rw [List.filter_cons_of_pos (by simp [h])] at hf
      obtain ⟨hcb, hrest⟩ := List.cons_eq_cons.mp hf
      unfold skip_line_re
      rw [List.dropWhile_cons_of_neg h, hcb]
      simp only [hb, Bool.true_and]
      rw [List.all_eq_true]
      intro x hx
      have := List.filter_eq_nil_iff.mp hrest x hx
      simpa using this

/-- A line whose only non-whitespace character is a single brace is
skipped as excluded. -/
theorem should_skip_line_excluded (line : Str) (b : Char)
    (hb : (b == '{' || b == '}') = true)
    (h : line.filter (fun c => !isPySpace c) = [b]) :
    should_skip_line line = (true, "excluded") := by
  have hf : (pyRstripNL line).filter (fun c => !isPySpace c) = [b] :=
    (filter_pyRstripNL line).trans h
  have hbne : isPySpace b = false := by
    rcases Bool.or_eq_true_iff.mp hb with h1 | h1 <;> · rw [eq_of_beq h1]; decide
  have hmem : b ∈ pyRstripNL line := by
    have : b ∈ (pyRstripNL line).filter (fun c => !isPySpace c) := by
      rw [hf]; simp
    exact List.mem_of_mem_filter this
  have hne : (pyRstripNL line).isEmpty = false := by
    cases hl : pyRstripNL line with
    | nil => rw [hl] at hmem; cases hmem
    | cons x xs => simp
  have hnsp : pyIsSpace (pyRstripNL line) = false := by
    unfold pyIsSpace
    rw [hne]
    simp only [Bool.not_false, Bool.true_and]
    rw [List.all_eq_false]
    exact ⟨b, hmem, by simp [hbne]⟩
  simp [should_skip_line, hne, hnsp, skip_line_re_of_filter b hb _ hf]

/-- C4 counterexample: a line consisting only of whitespace and at most
one brace (here: a single space, zero braces) is counted as BLANK, not as
excluded, so the claim as stated fails on whitespace-only lines. -/
theorem C4_counterexample :
    ([' '] : Str).filter (fun c => !isPySpace c) ∈ ([[], ['{'], ['}']] : List Str) ∧
    (count_loc_in_content [' '] "c-style").excluded_lines = 0 ∧
    (count_loc_in_content [' '] "c-style").blank_lines = 1 := by
  refine ⟨by decide, by decide, by decide⟩

/-- C4 amended: the skip check runs before dialect-specific comment
classification and takes precedence. A line consisting only of whitespace
and at most one brace is counted as excluded when it contains a brace and
as blank otherwise — never as comment — even when the classifier state is
inside an open block comment or docstring, and the comment state carried
to subsequent lines is unchanged by such a line. -/
theorem C4_skip_precedence (line : Str)
    (h : line.filter (fun c => !isPySpace c) ∈ ([[], ['{'], ['}']] : List Str)) :
    ∀ (language : String) (rest : List Str) (in_block in_docstring : Bool)
      (docstring_quote : Str) (acc : FileLOC),
      countLocLoop language (line :: rest) in_block in_docstring docstring_quote acc
        = countLocLoop language rest in_block in_docstring docstring_quote
            (if (line.filter (fun c => !isPySpace c)).isEmpty then addBlank acc
             else addExcluded acc) := by
  intro language rest in_block in_docstring docstring_quote acc
  simp only [List.mem_cons, List.not_mem_nil, or_false] at h
  rcases h with h | h | h
  · conv_lhs => rw [countLocLoop]
    rw [should_skip_line_blank line h, h]
    simp
  · conv_lhs => rw [countLocLoop]
    rw [should_skip_line_excluded line '{' (by decide) h, h]
    simp
  · conv_lhs => rw [countLocLoop]
    rw [should_skip_line_excluded line '}' (by decide) h, h]
    simp

/-- Witness for C4: a bare closing-brace line while inside an open block
comment is folded as excluded with the in-block state preserved. -/
theorem C4_skip_precedence_witness :
    countLocLoop "c-style" ([['}']] : List Str) true false [] {}
      = countLocLoop "c-style" ([] : List Str) true false [] (addExcluded {}) := by
  have h := C4_skip_precedence ['}'] (by decide) "c-style" [] true false [] {}
  simpa using h

/-- Inserting permutes the cons. -/
theorem insertLe_perm {α : Type} (le : α → α → Bool) (x : α) :
    ∀ l : List α, (insertLe le x l).Perm (x :: l) := by
  intro l
  induction l with
  | nil => simp [insertLe]
  | cons y ys ih =>
    by_cases h : le x y = true
    · simp [insertLe, h]
    · simp only [insertLe, h, Bool.false_eq_true, if_neg, not_false_iff]
      exact (ih.cons y).trans (List.Perm.swap x y ys)

/-- Sorting permutes the list. -/
theorem sortLe_perm {α : Type} (le : α → α → Bool) :
    ∀ l : List α, (sortLe le l).Perm l := by
  intro l
  induction l with
  | nil => simp [sortLe]
  | cons x xs ih => exact (insertLe_perm le x (sortLe le xs)).trans (ih.cons x)

theorem sumBy_nil {α : Type} (f : α → ℕ) : sumBy f [] = 0 := rfl

theorem sumBy_cons {α : Type} (f : α → ℕ) (x : α) (l : List α) :
    sumBy f (x :: l) = f x + sumBy f l := by simp [sumBy]

theorem sumBy_append {α : Type} (f : α → ℕ) (l1 l2 : List α) :
    sumBy f (l1 ++ l2) = sumBy f l1 + sumBy f l2 := by simp [sumBy]

theorem sumBy_sortLe {α : Type} (f : α → ℕ) (l : List α) (le : α → α → Bool) :
    sumBy f (sortLe le l) = sumBy f l :=
  ((sortLe_perm le l).map f).sum_eq

/-- Folding a file into the package map adds its contribution to any
additive measure of the map values. -/
theorem updatePackageMap_sum (f : PackageLOC → ℕ) (g : ℕ) (key : Str) (fl : FileLOC)
    (hupd : ∀ p, f (pkgAdd p fl) = f p + g) (hnew : ∀ k, f (pkgNew k) = 0) :
    ∀ m, pkgMapSum f (updatePackageMap m key fl) = pkgMapSum f m + g := by
  intro m
  induction m with
  | nil => simp [updatePackageMap, pkgMapSum, sumBy, hupd, hnew]
  | cons kv rest ih =>
    obtain ⟨k0, p0⟩ := kv
    by_cases h : (k0 == key) = true
    · simp only [updatePackageMap, h, if_pos]
      simp [pkgMapSum, sumBy_cons, hupd]
      omega
    · simp only [updatePackageMap, h, if_neg, Bool.false_eq_true, not_false_iff]
      simp only [pkgMapSum, sumBy_cons] at ih ⊢
      omega

/-- Folding a file into the module map adds its contribution to any
additive measure of the map values. -/
theorem updateModuleMap_sum (f : ModuleLOC → ℕ) (g : ℕ) (key : Str) (fl : FileLOC)
    (hupd : ∀ m, f (modAdd m fl) = f m + g) (hnew : ∀ k, f (modNew k) = 0) :
    ∀ m, modMapSum f (updateModuleMap m key fl) = modMapSum f m + g := by
  intro m
  induction m with
  | nil => simp [updateModuleMap, modMapSum, sumBy, hupd, hnew]
  | cons kv rest ih =>
    obtain ⟨k0, m0⟩ := kv
    by_cases h : (k0 == key) = true
    · simp only [updateModuleMap, h, if_pos]
      simp [modMapSum, sumBy_cons, hupd]
      omega
    · simp only [updateModuleMap, h, if_neg, Bool.false_eq_true, not_false_iff]
      simp only [modMapSum, sumBy_cons] at ih ⊢
      omega

/-- Generic accumulation lemma for the walk fold: a measure that each
step increases by the element's contribution sums the contributions. -/
theorem foldl_measure (meas : Agg → ℕ) (contrib : Str × FileLOC → ℕ)
    (hstep : ∀ a e, meas (foldStep a e) = meas a + contrib e) :
    ∀ (es : List (Str × FileLOC)) (a : Agg),
      meas (es.foldl foldStep a) = meas a + sumBy contrib es := by
  intro es
  induction es with
  | nil => intro a; simp [sumBy]
  | cons e rest ih =>
    intro a
    rw [List.foldl_cons, ih, hstep, sumBy_cons]
    omega

/-- The walk fold appends the contributed files to the flat file list. -/
theorem foldl_files (es : List (Str × FileLOC)) :
    ∀ a : Agg, ((es.foldl foldStep a).project.files)
      = a.project.files ++ es.map Prod.snd := by
  induction es with
  | nil => intro a; simp
  | cons e rest ih =>
    intro a
    rw [List.foldl_cons, ih]
    simp [foldStep, projAdd]

/-- Appending a package into a module's package list leaves every measure
that ignores the package list unchanged. -/
theorem appendPkgToModule_sum (f : ModuleLOC → ℕ)
    (hf : ∀ m pkg, f { m with packages := m.packages ++ [pkg] } = f m) :
    ∀ (mm : List (Str × ModuleLOC)) (mod : Str) (pkg : PackageLOC),
      modMapSum f (appendPkgToModule mm mod pkg) = modMapSum f mm := by
  intro mm
  induction mm with
  | nil => intro mod pkg; simp [appendPkgToModule]
  | cons kv rest ih =>
    intro mod pkg
    obtain ⟨k0, m0⟩ := kv
    by_cases h : (k0 == mod) = true
    · simp only [appendPkgToModule, h, if_pos]
      simp [modMapSum, sumBy_cons, hf]
    · simp only [appendPkgToModule, h, if_neg, Bool.false_eq_true, not_false_iff]
      simp only [modMapSum, sumBy_cons] at ih ⊢
      rw [ih]

/-- The package-to-module cross-linking pass leaves every measure that
ignores the package list unchanged. -/
theorem crossLink_sum (f : ModuleLOC → ℕ)
    (hf : ∀ m pkg, f { m with packages := m.packages ++ [pkg] } = f m) :
    ∀ (pkgs : List PackageLOC) (mm : List (Str × ModuleLOC)),
      modMapSum f (pkgs.foldl
        (fun mm pkg => appendPkgToModule mm (moduleOfPackage pkg) pkg) mm)
        = modMapSum f mm := by
  intro pkgs
  induction pkgs with
  | nil => intro mm; simp
  | cons pkg rest ih =>
    intro mm
    rw [List.foldl_cons, ih, appendPkgToModule_sum f hf]

/-- Sum over package-map values equals sum over the value list. -/
theorem sumBy_map_snd_pkg (f : PackageLOC → ℕ) (m : List (Str × PackageLOC)) :
    sumBy f (m.map Prod.snd) = pkgMapSum f m := by
  simp only [pkgMapSum, sumBy, List.map_map]
  rfl

/-- Sum over module-map values equals sum over the value list. -/
theorem sumBy_map_snd_mod (f : ModuleLOC → ℕ) (m : List (Str × ModuleLOC)) :
    sumBy f (m.map Prod.snd) = modMapSum f m := by
  simp only [modMapSum, sumBy, List.map_map]
  rfl

/-- C2: for every directory walk, the ProjectLOC returned by the
directory aggregator satisfies `total_loc = Σ files.loc = Σ packages.loc
= Σ modules.loc`, the same equalities for `total_comment_lines`, and
`total_files = Σ package.file_count`. -/
theorem C2_rollup (walk : List WalkEntry) (directory : Str) :
    (count_loc_in_directory walk directory).total_loc
        = sumBy FileLOC.loc (count_loc_in_directory walk directory).files
      ∧ (count_loc_in_directory walk directory).total_loc
        = sumBy PackageLOC.loc (count_loc_in_directory walk directory).packages
      ∧ (count_loc_in_directory walk directory).total_loc
        = sumBy ModuleLOC.loc (count_loc_in_directory walk directory).modules
      ∧ (count_loc_in_directory walk directory).total_comment_lines
        = sumBy FileLOC.comment_lines (count_loc_in_directory walk directory).files
      ∧ (count_loc_in_directory walk directory).total_comment_lines
        = sumBy PackageLOC.comment_lines (count_loc_in_directory walk directory).packages
      ∧ (count_loc_in_directory walk directory).total_comment_lines
        = sumBy ModuleLOC.comment_lines (count_loc_in_directory walk directory).modules
      ∧ (count_loc_in_directory walk directory).total_files
        = sumBy PackageLOC.file_count (count_loc_in_directory walk directory).packages := by
  have hfiles := foldl_files (collectFiles walk) (aggInit directory)
  have hloc := foldl_measure (fun a => a.project.total_loc) (fun e => e.2.loc)
    (fun a e => by simp [foldStep, projAdd]) (collectFiles walk) (aggInit directory)
  have hcom := foldl_measure (fun a => a.project.total_comment_lines)
    (fun e => e.2.comment_lines)
    (fun a e => by simp [foldStep, projAdd]) (collectFiles walk) (aggInit directory)
  have hcnt := foldl_measure (fun a => a.project.total_files) (fun _ => 1)
    (fun a e => by simp [foldStep, projAdd]) (collectFiles walk) (aggInit directory)
  have hpkgloc := foldl_measure (fun a => pkgMapSum PackageLOC.loc a.pkgMap)
    (fun e => e.2.loc)
    (fun a e => updatePackageMap_sum PackageLOC.loc e.2.loc (pkgKeyOf e.1) e.2
      (fun p => by simp [pkgAdd]) (fun k => rfl) a.pkgMap)
    (collectFiles walk) (aggInit directory)
  have hpkgcom := foldl_measure (fun a => pkgMapSum PackageLOC.comment_lines a.pkgMap)
    (fun e => e.2.comment_lines)
    (fun a e => updatePackageMap_sum PackageLOC.comment_lines e.2.comment_lines
      (pkgKeyOf e.1) e.2 (fun p => by simp [pkgAdd]) (fun k => rfl) a.pkgMap)
    (collectFiles walk) (aggInit directory)
  have hpkgcnt := foldl_measure (fun a => pkgMapSum PackageLOC.file_count a.pkgMap)
    (fun _ => 1)
    (fun a e => updatePackageMap_sum PackageLOC.file_count 1 (pkgKeyOf e.1) e.2
      (fun p => by simp [pkgAdd]) (fun k => rfl) a.pkgMap)
    (collectFiles walk) (aggInit directory)
  have hmodloc := foldl_measure (fun a => modMapSum ModuleLOC.loc a.modMap)
    (fun e => e.2.loc)
    (fun a e => updateModuleMap_sum ModuleLOC.loc e.2.loc (modKeyOf e.1) e.2
      (fun m => by simp [modAdd]) (fun k => rfl) a.modMap)
    (collectFiles walk) (aggInit directory)
  have hmodcom := foldl_measure (fun a => modMapSum ModuleLOC.comment_lines a.modMap)
    (fun e => e.2.comment_lines)
    (fun a e => updateModuleMap_sum ModuleLOC.comment_lines e.2.comment_lines
      (modKeyOf e.1) e.2 (fun m => by simp [modAdd]) (fun k => rfl) a.modMap)
    (collectFiles walk) (aggInit directory)
  have hXloc : modMapSum ModuleLOC.loc (finalModMap walk directory)
      = modMapSum ModuleLOC.loc (walkAgg walk directory).modMap :=
    crossLink_sum ModuleLOC.loc (fun m pkg => rfl) (finalPackages walk directory)
      (walkAgg walk directory).modMap
  have hXcom : modMapSum ModuleLOC.comment_lines (finalModMap walk directory)
      = modMapSum ModuleLOC.comment_lines (walkAgg walk directory).modMap :=
    crossLink_sum ModuleLOC.comment_lines (fun m pkg => rfl)
      (finalPackages walk directory) (walkAgg walk directory).modMap
  refine ⟨?_, ?_, ?_, ?_, ?_, ?_, ?_⟩
  · show (walkAgg walk directory).project.total_loc
      = sumBy FileLOC.loc (walkAgg walk directory).project.files
    rw [show walkAgg walk directory
      = (collectFiles walk).foldl foldStep (aggInit directory) from rfl]
    rw [hloc, hfiles]
    simp only [sumBy, List.map_map, aggInit, List.nil_append]
    simp only [Nat.zero_add]
    rfl
  · show (walkAgg walk directory).project.total_loc
      = sumBy PackageLOC.loc (finalPackages walk directory)
    rw [finalPackages, sumBy_sortLe, sumBy_map_snd_pkg]
    rw [show walkAgg walk directory
      = (collectFiles walk).foldl foldStep (aggInit directory) from rfl]
    rw [hloc, hpkgloc]
    simp [aggInit, pkgMapSum, sumBy]
  · show (walkAgg walk directory).project.total_loc
      = sumBy ModuleLOC.loc (sortLe (fun p q => lexLe p.module q.module)
          (List.map Prod.snd (finalModMap walk directory)))
    rw [sumBy_sortLe, sumBy_map_snd_mod, hXloc]
    rw [show walkAgg walk directory
      = (collectFiles walk).foldl foldStep (aggInit directory) from rfl]
    rw [hloc, hmodloc]
    simp [aggInit, modMapSum, sumBy]
  · show (walkAgg walk directory).project.total_comment_lines
      = sumBy FileLOC.comment_lines (walkAgg walk directory).project.files
    rw [show walkAgg walk directory
      = (collectFiles walk).foldl foldStep (aggInit directory) from rfl]
    rw [hcom, hfiles]
    simp only [sumBy, List.map_map, aggInit, List.nil_append]
    simp only [Nat.zero_add]
    rfl
  · show (walkAgg walk directory).project.total_comment_lines
      = sumBy PackageLOC.comment_lines (finalPackages walk directory)
    rw [finalPackages, sumBy_sortLe, sumBy_map_snd_pkg]
    rw [show walkAgg walk directory
      = (collectFiles walk).foldl foldStep (aggInit directory) from rfl]
    rw [hcom, hpkgcom]
    simp [aggInit, pkgMapSum, sumBy]
  · show (walkAgg walk directory).project.total_comment_lines
      = sumBy ModuleLOC.comment_lines (sortLe (fun p q => lexLe p.module q.module)
          (List.map Prod.snd (finalModMap walk directory)))
    rw [sumBy_sortLe, sumBy_map_snd_mod, hXcom]
    rw [show walkAgg walk directory
      = (collectFiles walk).foldl foldStep (aggInit directory) from rfl]
    rw [hcom, hmodcom]
    simp [aggInit, modMapSum, sumBy]
  · show (walkAgg walk directory).project.total_files
      = sumBy PackageLOC.file_count (finalPackages walk directory)
    rw [finalPackages, sumBy_sortLe, sumBy_map_snd_pkg]
    rw [show walkAgg walk directory
      = (collectFiles walk).foldl foldStep (aggInit directory) from rfl]
    rw [hcnt, hpkgcnt]
    simp [aggInit, pkgMapSum, sumBy]

/-- The module map only ever holds modules with `package_count = 0`:
`modNew` starts at zero and `modAdd` never touches the field. -/
theorem updateModuleMap_pc (key : Str) (fl : FileLOC) :
    ∀ m : List (Str × ModuleLOC), (∀ kv ∈ m, kv.2.package_count = 0) →
      ∀ kv ∈ updateModuleMap m key fl, kv.2.package_count = 0 := by
  intro m
  induction m with
  | nil =>
    intro _ kv hkv
    simp only [updateModuleMap, List.mem_singleton] at hkv
    subst hkv
    rfl
  | cons kv0 rest ih =>
    intro h kv hkv
    obtain ⟨k0, m0⟩ := kv0
    by_cases hk : (k0 == key) = true
    · simp only [updateModuleMap, hk, if_pos, List.mem_cons] at hkv
      rcases hkv with hkv | hkv
      · subst hkv
        simpa [modAdd] using h (k0, m0) (by simp)
      · exact h kv (by simp [hkv])
    · simp only [updateModuleMap, hk, if_neg, Bool.false_eq_true,
        not_false_iff, List.mem_cons] at hkv
      rcases hkv with hkv | hkv
      · subst hkv; exact h (k0, m0) (by simp)
      · exact ih (fun x hx => h x (by simp [hx])) kv hkv

/-- The walk fold preserves the all-zero `package_count` invariant of the
module map. -/
theorem foldl_modMap_pc (es : List (Str × FileLOC)) :
    ∀ a : Agg, (∀ kv ∈ a.modMap, kv.2.package_count = 0) →
      ∀ kv ∈ (es.foldl foldStep a).modMap, kv.2.package_count = 0 := by
  induction es with
  | nil => intro a h; exact h
  | cons e rest ih =>
    intro a h
    rw [List.foldl_cons]
    exact ih _ (updateModuleMap_pc (modKeyOf e.1) e.2 a.modMap h)

/-- Cross-linking packages into modules preserves `package_count`. -/
theorem appendPkgToModule_pc (mod : Str) (pkg : PackageLOC) :
    ∀ mm : List (Str × ModuleLOC), (∀ kv ∈ mm, kv.2.package_count = 0) →
      ∀ kv ∈ appendPkgToModule mm mod pkg, kv.2.package_count = 0 := by
  intro mm
  induction mm with
  | nil => intro h kv hkv; simp [appendPkgToModule] at hkv
  | cons kv0 rest ih =>
    intro h kv hkv
    obtain ⟨k0, m0⟩ := kv0
    by_cases hk : (k0 == mod) = true
    · simp only [appendPkgToModule, hk, if_pos, List.mem_cons] at hkv
      rcases hkv with hkv | hkv
      · subst hkv
        simpa using h (k0, m0) (by simp)
      · exact h kv (by simp [hkv])
    · simp only [appendPkgToModule, hk, if_neg, Bool.false_eq_true,
        not_false_iff, List.mem_cons] at hkv
      rcases hkv with hkv | hkv
      · subst hkv; exact h (k0, m0) (by simp)
      · exact ih (fun x hx => h x (by simp [hx])) kv hkv

/-- The cross-linking pass over all packages preserves `package_count`. -/
theorem crossLink_pc (pkgs : List PackageLOC) :
    ∀ mm : List (Str × ModuleLOC), (∀ kv ∈ mm, kv.2.package_count = 0) →
      ∀ kv ∈ pkgs.foldl
        (fun mm pkg => appendPkgToModule mm (moduleOfPackage pkg) pkg) mm,
        kv.2.package_count = 0 := by
  induction pkgs with
  | nil => intro mm h; exact h
  | cons pkg rest ih =>
    intro mm h
    rw [List.foldl_cons]
    exact ih _ (appendPkgToModule_pc (moduleOfPackage pkg) pkg mm h)

/-- C10: every ModuleLOC in the ProjectLOC returned by the directory
aggregator has `package_count = 0` — the field is declared but never
incremented — even though its `packages` list can be non-empty, as the
second conjunct shows on a one-file walk. -/
theorem C10_package_count :
    (∀ (walk : List WalkEntry) (directory : Str),
      ∀ m ∈ (count_loc_in_directory walk directory).modules, m.package_count = 0)
    ∧ ∃ m ∈ (count_loc_in_directory
        [⟨['.'], [("a.py".data, some "x = 1".data)]⟩] []).modules,
        m.packages ≠ [] := by
  constructor
  · intro walk directory m hm
    simp only [count_loc_in_directory] at hm
    have hperm := sortLe_perm (fun p q => lexLe p.module q.module)
      ((finalModMap walk directory).map Prod.snd)
    have hm2 : m ∈ (finalModMap walk directory).map Prod.snd := hperm.mem_iff.mp hm
    obtain ⟨kv, hkv, rfl⟩ := List.mem_map.mp hm2
    have hbase : ∀ kv ∈ (walkAgg walk directory).modMap, kv.2.package_count = 0 := by
      unfold walkAgg
      exact foldl_modMap_pc (collectFiles walk) (aggInit directory)
        (by intro kv hkv; simp [aggInit] at hkv)
    exact crossLink_pc (finalPackages walk directory)
      (walkAgg walk directory).modMap hbase kv hkv
  · decide

/-- The default-headed first element of a non-empty list is a member. -/
theorem headD_mem {α : Type} (l : List α) (d : α) (h : l ≠ []) : l.headD d ∈ l := by
  cases l with
  | nil => exact absurd rfl h
  | cons x xs => simp

/-- Witness for C10: applying the universal part to the concrete one-file
walk shows its (unique, packages-carrying) module has `package_count =
0`. -/
theorem C10_package_count_witness :
    (((count_loc_in_directory [⟨['.'], [("a.py".data, some "x = 1".data)]⟩] []).modules).headD
        { module := [] }).package_count = 0 :=
  C10_package_count.1 [⟨['.'], [("a.py".data, some "x = 1".data)]⟩] [] _
    (headD_mem _ _ (by decide))

/-- The per-content weighted LOC follows the formula. -/
theorem count_content_weighted (content : Str) (language : String) :
    (count_loc_in_content content language).weighted_loc
      = ((count_loc_in_content content language).loc : ℚ) * 1
        + ((count_loc_in_content content language).comment_lines : ℚ) * 0.5 := by
  simp [count_loc_in_content, setWeighted, calculate_weighted_loc,
    CODE_WEIGHT, COMMENT_WEIGHT]

/-- Every file contributed by the walk carries a weighted LOC that follows
the formula (its FileLOC is produced by `count_loc_in_content`, whose
final step computes exactly that). -/
theorem collectFiles_weighted :
    ∀ (walk : List WalkEntry), ∀ e ∈ collectFiles walk,
      e.2.weighted_loc = (e.2.loc : ℚ) * 1 + (e.2.comment_lines : ℚ) * 0.5 := by
  intro walk
  induction walk with
  | nil => simp [collectFiles]
  | cons entry rest ih =>
    intro e he
    simp only [collectFiles, List.mem_append] at he
    rcases he with he | he
    · unfold entryFiles at he
      by_cases hd : dirSkipped entry.relDir = true
      · simp [hd] at he
      · simp only [hd, Bool.false_eq_true, if_neg, not_false_iff] at he
        rw [List.mem_filterMap] at he
        obtain ⟨fc, _, hsome⟩ := he
        by_cases hsup : is_supported_file fc.1 = true
        · simp only [hsup, Bool.not_true, Bool.false_eq_true, if_neg,
            not_false_iff] at hsome
          unfold count_loc_in_file at hsome
          by_cases hsup2 :
              is_supported_file (relPathOf entry.relDir fc.1) = true
          · simp only [hsup2, Bool.not_true, Bool.false_eq_true, if_neg,
              not_false_iff] at hsome
            cases hc : fc.2 with
            | none => rw [hc] at hsome; simp at hsome
            | some c =>
              rw [hc] at hsome
              simp only [Option.map_eq_some'] at hsome
              obtain ⟨fl, hfl, rfl⟩ := hsome
              obtain ⟨rfl⟩ := Option.some_inj.mp hfl
              simpa using count_content_weighted c
                (detect_language (relPathOf entry.relDir fc.1))
          · simp [hsup2] at hsome
        · simp [hsup] at hsome
    · exact ih e he

/-- Summing weighted LOCs that each follow the formula gives the formula
on the summed counters. -/
theorem sumQ_weighted (es : List (Str × FileLOC))
    (h : ∀ e ∈ es, e.2.weighted_loc = (e.2.loc : ℚ) * 1 + (e.2.comment_lines : ℚ) * 0.5) :
    sumByQ (fun e => e.2.weighted_loc) es
      = (sumBy (fun e => e.2.loc) es : ℚ) * 1
        + (sumBy (fun e => e.2.comment_lines) es : ℚ) * 0.5 := by
  induction es with
  | nil => simp [sumByQ, sumBy]
  | cons e rest ih =>
    have he := h e (by simp)
    have hr := ih (fun x hx => h x (by simp [hx]))
    simp only [sumByQ, sumBy, List.map_cons, List.sum_cons] at he hr ⊢
    rw [he, hr]
    push_cast
    ring

/-- Generic rational accumulation lemma for the walk fold. -/
theorem foldl_measureQ (meas : Agg → ℚ) (contrib : Str × FileLOC → ℚ)
    (hstep : ∀ a e, meas (foldStep a e) = meas a + contrib e) :
    ∀ (es : List (Str × FileLOC)) (a : Agg),
      meas (es.foldl foldStep a) = meas a + sumByQ contrib es := by
  intro es
  induction es with
  | nil => intro a; simp [sumByQ]
  | cons e rest ih =>
    intro a
    rw [List.foldl_cons, ih, hstep]
    simp [sumByQ]
    ring

/-- C3: for every file analyzed and for the project-level aggregate, the
weighted LOC equals `code_lines * 1.0 + comment_lines * 0.5` exactly
(floats modelled as exact rationals: every value involved is an integer
multiple of one half, hence exactly representable). -/
theorem C3_weighted_formula :
    (∀ (content : Str) (language : String),
      (count_loc_in_content content language).weighted_loc
        = ((count_loc_in_content content language).loc : ℚ) * 1
          + ((count_loc_in_content content language).comment_lines : ℚ) * 0.5)
    ∧ (∀ (walk : List WalkEntry) (directory : Str),
        ∀ fl ∈ (count_loc_in_directory walk directory).files,
          fl.weighted_loc = (fl.loc : ℚ) * 1 + (fl.comment_lines : ℚ) * 0.5)
    ∧ (∀ (walk : List WalkEntry) (directory : Str),
        (count_loc_in_directory walk directory).total_weighted_loc
          = ((count_loc_in_directory walk directory).total_loc : ℚ) * 1
            + ((count_loc_in_directory walk directory).total_comment_lines : ℚ) * 0.5) := by
  refine ⟨count_content_weighted, ?_, ?_⟩
  · intro walk directory fl hfl
    have hfiles := foldl_files (collectFiles walk) (aggInit directory)
    have : fl ∈ (walkAgg walk directory).project.files := hfl
    rw [show walkAgg walk directory
      = (collectFiles walk).foldl foldStep (aggInit directory) from rfl, hfiles] at this
    simp only [aggInit, List.nil_append, List.mem_map] at this
    obtain ⟨e, he, rfl⟩ := this
    exact collectFiles_weighted walk e he
  · intro walk directory
    have hw := foldl_measureQ (fun a => a.project.total_weighted_loc)
      (fun e => e.2.weighted_loc)
      (fun a e => by simp [foldStep, projAdd]) (collectFiles walk) (aggInit directory)
    have hloc := foldl_measure (fun a => a.project.total_loc) (fun e => e.2.loc)
      (fun a e => by simp [foldStep, projAdd]) (collectFiles walk) (aggInit directory)
    have hcom := foldl_measure (fun a => a.project.total_comment_lines)
      (fun e => e.2.comment_lines)
      (fun a e => by simp [foldStep, projAdd]) (collectFiles walk) (aggInit directory)
    show (walkAgg walk directory).project.total_weighted_loc
      = ((walkAgg walk directory).project.total_loc : ℚ) * 1
        + ((walkAgg walk directory).project.total_comment_lines : ℚ) * 0.5
    rw [show walkAgg walk directory
      = (collectFiles walk).foldl foldStep (aggInit directory) from rfl]
    rw [hw, hloc, hcom, sumQ_weighted (collectFiles walk) (collectFiles_weighted walk)]
    simp [aggInit]

/-- Witness for C3: the first file of the concrete one-file walk satisfies
the weighted-LOC formula. -/
theorem C3_weighted_formula_witness :
    ((count_loc_in_directory [⟨['.'], [("a.py".data, some "x = 1".data)]⟩] []).files.headD
        {}).weighted_loc
      = (((count_loc_in_directory [⟨['.'], [("a.py".data, some "x = 1".data)]⟩] []).files.headD
          {}).loc : ℚ) * 1
        + (((count_loc_in_directory [⟨['.'], [("a.py".data, some "x = 1".data)]⟩] []).files.headD
          {}).comment_lines : ℚ) * 0.5 :=
  C3_weighted_formula.2.1 [⟨['.'], [("a.py".data, some "x = 1".data)]⟩] [] _
    (headD_mem _ _ (by decide))

/-- Inserting a record makes it the value found under its key. -/
theorem lookupJob_insertJob (key : Str) (r : JobRecord) :
    ∀ m : List (Str × JobRecord), lookupJob (insertJob m key r) key = some r := by
  intro m
  induction m with
  | nil => simp [insertJob, lookupJob]
  | cons kv rest ih =>
    obtain ⟨k0, r0⟩ := kv
    by_cases h : (k0 == key) = true
    · simp [insertJob, lookupJob, h]
    · simp [insertJob, lookupJob, h, ih]

/-- C5 counterexample: on a started-then-shut-down pool, `submit` does
NOT fail with the "pool not running" condition — the executor reference
is still set, so the check passes, a queued JobRecord IS created and
stored, and only the executor's own `submit` raises (with the standard
library's shutdown message). -/
theorem C5_counterexample :
    ((WorkerPool.shutdown (WorkerPool.start { pool_size := 4 })).submit
        "j1".data none (some "/tmp/x".data) 0).2
      = Except.error "cannot schedule new futures after shutdown"
    ∧ lookupJob ((WorkerPool.shutdown (WorkerPool.start { pool_size := 4 })).submit
        "j1".data none (some "/tmp/x".data) 0).1.jobs "j1".data
      = some (mkJobRecord "j1".data none (some "/tmp/x".data) 0)
    ∧ (mkJobRecord "j1".data none (some "/tmp/x".data) 0).status = "queued" :=
  ⟨rfl, rfl, rfl⟩

/-- C5 amended: `submit` fails with "Worker pool is not running" and
leaves the pool unchanged exactly when called before `start()` (executor
never created). On a pool whose executor exists, `submit` always creates
a JobRecord in queued state and stores it keyed by id in the shared job
table; it then returns the record when the executor is live, and fails
with the executor's shutdown error — the record remaining stored — when
`shutdown()` has been called. -/
theorem C5_submit_contract (pool : WorkerPool) (job_id : Str)
    (repo_url local_path : Option Str) (now : ℕ) :
    (pool.executor = none →
      pool.submit job_id repo_url local_path now
        = (pool, Except.error "Worker pool is not running"))
    ∧ (∀ ex, pool.executor = some ex →
        (pool.submit job_id repo_url local_path now).1.jobs
          = insertJob pool.jobs job_id (mkJobRecord job_id repo_url local_path now)
        ∧ lookupJob (pool.submit job_id repo_url local_path now).1.jobs job_id
          = some (mkJobRecord job_id repo_url local_path now)
        ∧ (mkJobRecord job_id repo_url local_path now).status = "queued"
        ∧ (ex.isShutdown = false →
            (pool.submit job_id repo_url local_path now).2
              = Except.ok (mkJobRecord job_id repo_url local_path now))
        ∧ (ex.isShutdown = true →
            (pool.submit job_id repo_url local_path now).2
              = Except.error "cannot schedule new futures after shutdown")) := by
  constructor
  · intro h
    simp [WorkerPool.submit, h]
  · intro ex h
    refine ⟨?_, ?_, rfl, ?_, ?_⟩
    · simp only [WorkerPool.submit, h]
      cases hs : ex.isShutdown <;> simp
    · simp only [WorkerPool.submit, h]
      cases hs : ex.isShutdown <;> simp [lookupJob_insertJob]
    · intro hs
      simp [WorkerPool.submit, h, hs]
    · intro hs
      simp [WorkerPool.submit, h, hs]

/-- Witness for C5: a never-started pool rejects a submission with the
"pool not running" error and is left unchanged. -/
theorem C5_submit_contract_witness :
    ({ pool_size := 4 } : WorkerPool).submit "j".data none none 0
      = ({ pool_size := 4 }, Except.error "Worker pool is not running") :=
  (C5_submit_contract { pool_size := 4 } "j".data none none 0).1 rfl

/-- A body that returns normally has completed the record. -/
theorem runJobBody_ok_status (record : JobRecord) (env : RunEnv) (r : JobRecord) :
    runJobBody record env = Except.ok r → r.status = "completed" := by
  intro h
  unfold runJobBody at h
  cases hres : resolveSource record env with
  | error msg => rw [hres] at h; cases h
  | ok p =>
    rw [hres] at h
    cases hloc : env.locResult with
    | error msg => rw [hloc] at h; cases h
    | ok project_loc =>
      rw [hloc] at h
      have hr := Except.ok.inj h
      subst hr
      rfl

/-- A body that raises carries a clone, aggregation or validation
message. -/
theorem runJobBody_error_cases (record : JobRecord) (env : RunEnv) (msg : String) :
    runJobBody record env = Except.error msg →
      env.cloneResult = Except.error msg ∨ env.locResult = Except.error msg
        ∨ msg = "No repo_url or local_path provided" := by
  intro h
  unfold runJobBody at h
  cases hres : resolveSource record env with
  | error m =>
    rw [hres] at h
    obtain rfl : m = msg := (Except.error.inj h)
    unfold resolveSource at hres
    by_cases h1 : pyTruthy record.repo_url = true
    · rw [if_pos h1] at hres
      exact Or.inl hres
    · rw [if_neg h1] at hres
      by_cases h2 : pyTruthy record.local_path = true
      · rw [if_pos h2] at hres; cases hres
      · rw [if_neg h2] at hres
        exact Or.inr (Or.inr (Except.error.inj hres).symm)
  | ok p =>
    rw [hres] at h
    cases hloc : env.locResult with
    | error m =>
      rw [hloc] at h
      obtain rfl : m = msg := (Except.error.inj h)
      exact Or.inr (Or.inl rfl)
    | ok project_loc => rw [hloc] at h; cases h

/-- C6: a job whose execution fails carries the raised exception's
message in `error` (non-null) and exposes no result: `result` stays
`none` for every failing run of a freshly submitted record. -/
theorem C6_failed_job (job_id : Str) (repo_url local_path : Option Str)
    (created : ℕ) (env : RunEnv)
    (h : (run_job (mkJobRecord job_id repo_url local_path created) env).status
      = "failed") :
    ∃ msg,
      (run_job (mkJobRecord job_id repo_url local_path created) env).error = some msg
      ∧ (run_job (mkJobRecord job_id repo_url local_path created) env).result = none
      ∧ (env.cloneResult = Except.error msg ∨ env.locResult = Except.error msg
          ∨ msg = "No repo_url or local_path provided") := by
  unfold run_job at h ⊢
  cases hb : runJobBody (setProcessing (mkJobRecord job_id repo_url local_path created)
      env.startTime) env with
  | ok r =>
    rw [hb] at h
    have hst := runJobBody_ok_status _ env r hb
    simp [setCompletedAt, hst] at h
  | error msg =>
    rw [hb] at h
    refine ⟨msg, ?_, ?_, ?_⟩
    · simp [setCompletedAt]
    · simp [setCompletedAt, setProcessing, mkJobRecord]
    · exact runJobBody_error_cases _ env msg hb

/-- Witness for C6: a record with no source descriptor fails, its error is
the validation message and its result stays nil. -/
theorem C6_failed_job_witness :
    ∃ msg,
      (run_job (mkJobRecord "j".data none none 0) envBoom).error = some msg
      ∧ (run_job (mkJobRecord "j".data none none 0) envBoom).result = none
      ∧ (envBoom.cloneResult = Except.error msg
          ∨ envBoom.locResult = Except.error msg
          ∨ msg = "No repo_url or local_path provided") :=
  C6_failed_job "j".data none none 0 envBoom (by decide)

/-- C9: on a started pool, submitting with neither a repo_url nor a
local_path does not fail at submission — a queued JobRecord is created,
stored and returned — and its execution later fails with the validation
message "No repo_url or local_path provided" and a nil result, whatever
the collaborators would have answered. -/
theorem C9_no_descriptor (pool : WorkerPool) (job_id : Str) (now : ℕ) (env : RunEnv)
    (h : pool.executor = some { isShutdown := false }) :
    (pool.submit job_id none none now).2 = Except.ok (mkJobRecord job_id none none now)
    ∧ (mkJobRecord job_id none none now).status = "queued"
    ∧ lookupJob (pool.submit job_id none none now).1.jobs job_id
        = some (mkJobRecord job_id none none now)
    ∧ (run_job (mkJobRecord job_id none none now) env).status = "failed"
    ∧ (run_job (mkJobRecord job_id none none now) env).error
        = some "No repo_url or local_path provided"
    ∧ (run_job (mkJobRecord job_id none none now) env).result = none := by
  refine ⟨?_, rfl, ?_, ?_, ?_, ?_⟩
  · simp [WorkerPool.submit, h]
  · simp [WorkerPool.submit, h, lookupJob_insertJob]
  · simp [run_job, runJobBody, resolveSource, pyTruthy, mkJobRecord,
      setProcessing, setCompletedAt]
  · simp [run_job, runJobBody, resolveSource, pyTruthy, mkJobRecord,
      setProcessing, setCompletedAt]
  · simp [run_job, runJobBody, resolveSource, pyTruthy, mkJobRecord,
      setProcessing, setCompletedAt]

/-- Witness for C9: the concrete started pool of size 4 and the concrete
failing-clone environment. -/
theorem C9_no_descriptor_witness :
    ((WorkerPool.start { pool_size := 4 }).submit "j".data none none 0).2
        = Except.ok (mkJobRecord "j".data none none 0)
    ∧ (mkJobRecord "j".data none none 0).status = "queued"
    ∧ lookupJob ((WorkerPool.start { pool_size := 4 }).submit
        "j".data none none 0).1.jobs "j".data
        = some (mkJobRecord "j".data none none 0)
    ∧ (run_job (mkJobRecord "j".data none none 0) envBoom).status = "failed"
    ∧ (run_job (mkJobRecord "j".data none none 0) envBoom).error
        = some "No repo_url or local_path provided"
    ∧ (run_job (mkJobRecord "j".data none none 0) envBoom).result = none :=
  C9_no_descriptor (WorkerPool.start { pool_size := 4 }) "j".data 0 envBoom rfl

/-- The numstat fold is the pair of per-line contribution sums. -/
theorem parse_numstat_fold (lines : List Str) :
    ∀ a0 d0 : ℕ,
      lines.foldl
        (fun ad line =>
          match numstatLine line with
          | none => ad
          | some p => (ad.1 + p.1, ad.2 + p.2))
        (a0, d0)
      = (a0 + sumBy (fun l => ((numstatLine l).getD (0, 0)).1) lines,
         d0 + sumBy (fun l => ((numstatLine l).getD (0, 0)).2) lines) := by
  induction lines with
  | nil => intro a0 d0; simp [sumBy]
  | cons line rest ih =>
    intro a0 d0
    rw [List.foldl_cons]
    cases hl : numstatLine line with
    | none =>
      rw [ih]
      simp [sumBy_cons, hl]
    | some p =>
      rw [ih]
      simp [sumBy_cons, hl]
      omega

/-- C7: `compute_commit_churn` sums added and deleted over exactly the
lines forming an `added\tdeleted\tpath` triple whose first two fields are
non-negative integers — a `-` in either field, non-numeric values and
negative values contribute nothing — and returns `modified = min(added,
deleted)` and `total = added + deleted`; a commit that only adds 3 lines
to a new file yields `{added:3, deleted:0, modified:0, total:3}`. -/
theorem C7_commit_churn :
    (∀ output : Str,
      (compute_commit_churn output).added
          = sumBy (fun l => ((numstatLine l).getD (0, 0)).1) (pySplitlines output)
        ∧ (compute_commit_churn output).deleted
          = sumBy (fun l => ((numstatLine l).getD (0, 0)).2) (pySplitlines output)
        ∧ (compute_commit_churn output).modified
          = min (compute_commit_churn output).added (compute_commit_churn output).deleted
        ∧ (compute_commit_churn output).total
          = (compute_commit_churn output).added + (compute_commit_churn output).deleted)
    ∧ (∀ line : Str,
        ((pySplitTabMax2 (pyStrip line)).length < 3 → numstatLine line = none)
        ∧ (∀ a_str d_str path : Str,
            pySplitTabMax2 (pyStrip line) = [a_str, d_str, path] →
            ((a_str = "-".data ∨ d_str = "-".data) → numstatLine line = none)
            ∧ (pyIntParse a_str = none → numstatLine line = none)
            ∧ (pyIntParse d_str = none → numstatLine line = none)
            ∧ (∀ a d : ℤ, pyIntParse a_str = some a → pyIntParse d_str = some d →
                (a < 0 ∨ d < 0) → numstatLine line = none)
            ∧ (∀ a d : ℤ, a_str ≠ "-".data → d_str ≠ "-".data →
                pyIntParse a_str = some a → pyIntParse d_str = some d →
                0 ≤ a → 0 ≤ d → numstatLine line = some (a.toNat, d.toNat))))
    ∧ compute_commit_churn "3\t0\tnewfile.txt".data
        = { added := 3, deleted := 0, modified := 0, total := 3 } := by
  refine ⟨?_, ?_, by decide⟩
  · intro output
    have hf := parse_numstat_fold (pySplitlines output) 0 0
    refine ⟨?_, ?_, rfl, rfl⟩
    · show (parse_numstat output).1 = _
      unfold parse_numstat
      rw [hf]
      simp
    · show (parse_numstat output).2 = _
      unfold parse_numstat
      rw [hf]
      simp
  · intro line
    constructor
    · intro hlen
      unfold numstatLine
      by_cases he : (pyStrip line).isEmpty = true
      · simp [he]
      · cases hp : pySplitTabMax2 (pyStrip line) with
        | nil => simp [he, hp]
        | cons x t =>
          cases t with
          | nil => simp [he, hp]
          | cons y t2 =>
            cases t2 with
            | nil => simp [he, hp]
            | cons z t3 =>
              exfalso
              rw [hp] at hlen
              simp at hlen
              omega
    · intro a_str d_str path hp
      have he : (pyStrip line).isEmpty = false := by
        cases hs : pyStrip line with
        | nil => rw [hs] at hp; simp [pySplitTabMax2, splitFirst] at hp
        | cons x xs => rfl
      refine ⟨?_, ?_, ?_, ?_, ?_⟩
      · intro h
        have hdash : (a_str == "-".data || d_str == "-".data) = true := by
          rcases h with h | h <;> simp [h]
        unfold numstatLine
        rw [hp]
        simp [he, hdash]
      · intro h
        unfold numstatLine
        rw [hp]
        by_cases hdash : (a_str == "-".data || d_str == "-".data) = true
        · simp [he, hdash]
        · simp [he, hdash, h]
      · intro h
        unfold numstatLine
        rw [hp]
        by_cases hdash : (a_str == "-".data || d_str == "-".data) = true
        · simp [he, hdash]
        · cases ha : pyIntParse a_str <;> simp [he, hdash, ha, h]
      · intro a d ha hd hneg
        unfold numstatLine
        rw [hp]
        by_cases hdash : (a_str == "-".data || d_str == "-".data) = true
        · simp [he, hdash]
        · have hcond : (a < 0 || d < 0) = true := by
            rcases hneg with hneg | hneg <;> simp [hneg]
          simp [he, hdash, ha, hd, hcond]
      · intro a d h0 h1 ha hd hanneg hdnneg
        unfold numstatLine
        rw [hp]
        have hdash : (a_str == "-".data || d_str == "-".data) = false := by
          simp only [Bool.or_eq_false_iff, beq_eq_false_iff_ne]
          exact ⟨h0, h1⟩
        have hnn : (a < 0 || d < 0) = false := by
          simp only [Bool.or_eq_false_iff, decide_eq_false_iff_not, not_lt]
          exact ⟨hanneg, hdnneg⟩
        simp [he, hdash, ha, hd, hnn]

/-- Witness for C7: the concrete line `"3\t1\tfile.py"` is a valid triple
and contributes `(3, 1)`. -/
theorem C7_commit_churn_witness :
    numstatLine "3\t1\tfile.py".data = some ((3 : ℤ).toNat, (1 : ℤ).toNat) :=
  ((C7_commit_churn.2.1 "3\t1\tfile.py".data).2 "3".data "1".data "file.py".data
      (by decide)).2.2.2.2 3 1
    (by decide) (by decide) (by decide) (by decide) (by decide) (by decide)

end RepoPulse
